import Mathlib

/-!
Shallow embedding of the shopping-assistant frontend
(`frontend/src/types/index.ts`, `frontend/src/utils/api.ts`,
`frontend/src/pages/search.tsx`).

The React component `SearchPage` keeps five pieces of state
(`messages`, `products`, `sessionId`, `suggestions`, `refinementOptions`)
and mutates them in three async handlers: `handleInitialSearch`,
`handleSendMessage` and `handleApplyRefinements`.  We embed that state as
a record `SearchState` and each handler invocation as a deterministic
`step` on the state, parameterised by the outcome of the single network
call the handler makes (`some response` for a successful call, `none`
for a thrown transport error).  `step` also returns the list of API
calls the handler issued, so that properties about the requests sent to
the server can be stated.

Nondeterministic decorations of chat messages (`id: uuidv4()` and
`timestamp: new Date()`) are elided: no property below concerns them.
JavaScript numbers are embedded as `Nat` (the values interpolated into
refinement strings are integral in every statement proved here), and
`number.toString` rendering as `Nat` rendering, which agrees on naturals.
-/

/-- Message role, `type: 'user' | 'assistant'` from `ChatMessage` in
`types/index.ts`. -/
inductive MsgType where
  | user
  | assistant
deriving DecidableEq, Repr

/-- `Product` from `types/index.ts`.  `score: number` is embedded as a
rational; no arithmetic is performed on it anywhere in the frontend. -/
structure Product where
  title : String
  price : String
  image_url : String
  product_url : String
  purchases : Nat
  good_reviews : String
  bad_reviews : String
  score : Rat
  reasoning : String
deriving DecidableEq, Repr

/-- `ChatMessage` from `types/index.ts`, minus the nondeterministic
`id`/`timestamp` fields (never read by any logic under verification). -/
structure ChatMessage where
  type : MsgType
  content : String
  products : Option (List Product) := none
deriving DecidableEq, Repr

/-- The `price_range` record `{ min: number; max: number }` of
`RefinementOptions` in `types/index.ts`; `handleApplyRefinements`
forwards this same record as the `price_range` of a `SearchRequest`. -/
structure PriceRange where
  min : Nat
  max : Nat
deriving DecidableEq, Repr

/-- `Partial<RefinementOptions>` as used throughout `search.tsx`
(the panel hands the page a `Partial`, so every field may be absent). -/
structure RefinementOptions where
  price_range : Option PriceRange := none
  features : Option (List String) := none
  verified_reviews_only : Option Bool := none
deriving DecidableEq, Repr

/-- `SearchRequest` from `types/index.ts`.  There is no field for the
verified-reviews flag and none for removal lists beyond
`features_to_remove`; optional fields default to absent, matching a TS
object literal that omits them. -/
structure SearchRequest where
  query : String
  session_id : Option String := none
  price_range : Option PriceRange := none
  features_to_add : Option (List String) := none
  features_to_remove : Option (List String) := none
deriving DecidableEq, Repr

/-- `SearchResponse` from `types/index.ts`. -/
structure SearchResponse where
  products : List Product
  session_id : String
  query_processed : String
  suggestions : List String
deriving DecidableEq, Repr

/-- One request issued through the API client: `searchProducts` posts to
`/search`, `refineSearch` posts to `/refine`, each with one
`SearchRequest` body. -/
inductive ApiCall where
  | search (req : SearchRequest)
  | refine (req : SearchRequest)
deriving DecidableEq, Repr

/-- The request body of an API call. -/
def ApiCall.req : ApiCall → SearchRequest
  | .search r => r
  | .refine r => r

/-- The `session_id` field of the request body of a call. -/
def ApiCall.sessionIdField (c : ApiCall) : Option String :=
  c.req.session_id

/-- Whether the call went to the `/refine` endpoint. -/
def ApiCall.isRefine : ApiCall → Bool
  | .refine _ => true
  | .search _ => false

/-! ### API client (`utils/api.ts`)

An axios call either resolves with a response body or throws (network
error, timeout, or non-2xx status, which axios turns into a thrown
error carrying the status and body).  We embed that outcome as
`Except AxiosFailure α` and each client function as the translation it
applies to the outcome of its one `api.post`/`api.get`. -/

/-- Whatever axios threw: possibly an HTTP status and a response body.
The client functions never inspect these fields. -/
structure AxiosFailure where
  status : Option Nat := none
  body : String := ""
deriving DecidableEq, Repr

/-- `searchProducts` in `utils/api.ts`: returns `response.data` on
success and throws `Error('Failed to search products')` on any error. -/
def searchProducts (outcome : Except AxiosFailure SearchResponse) :
    Except String SearchResponse :=
  match outcome with
  | .ok resp => .ok resp
  | .error _ => .error "Failed to search products"

/-- `refineSearch` in `utils/api.ts`: returns `response.data` on
success and throws `Error('Failed to refine search')` on any error. -/
def refineSearch (outcome : Except AxiosFailure SearchResponse) :
    Except String SearchResponse :=
  match outcome with
  | .ok resp => .ok resp
  | .error _ => .error "Failed to refine search"

/-- Body of a `/health` response; the `status` field may be absent
(`response.data.status` is then `undefined`). -/
structure HealthData where
  status : Option String := none
deriving DecidableEq, Repr

/-- `healthCheck` in `utils/api.ts`: `response.data.status === 'healthy'`
on success, `false` on any thrown error.  It is total: it never
re-throws. -/
def healthCheck (outcome : Except AxiosFailure HealthData) : Bool :=
  match outcome with
  | .ok d => d.status == some "healthy"
  | .error _ => false

/-! ### Page state (`pages/search.tsx`) -/

/-- The five `useState` cells of `SearchPage` that the handlers touch
(`isLoading` and `isRefinementOpen` are transient UI flags that are
always reset in `finally`/close and never read by the logic below). -/
structure SearchState where
  messages : List ChatMessage
  products : List Product
  sessionId : String
  suggestions : List String
  refinementOptions : RefinementOptions
deriving DecidableEq, Repr

/-- The initial `useState` values: empty transcript, no products, empty
session id string, no suggestions, empty refinement options. -/
def initState : SearchState :=
  { messages := []
    products := []
    sessionId := ""
    suggestions := []
    refinementOptions := {} }

/-- Assistant text built in `handleInitialSearch` on success. -/
def initialAssistantContent (resp : SearchResponse) : String :=
  "I found " ++ toString resp.products.length ++ " great options for \"" ++
    resp.query_processed ++
    "\". Here are the top recommendations based on reviews, price, and features."

/-- Assistant text built in `handleSendMessage` on success. -/
def sendAssistantContent (resp : SearchResponse) : String :=
  "Updated search results! I found " ++ toString resp.products.length ++
    " products that match your refined criteria."

/-- Assistant text built in `handleApplyRefinements` on success. -/
def refineAssistantContent (resp : SearchResponse) : String :=
  "Perfect! I've refined your search based on your preferences. Here are " ++
    toString resp.products.length ++ " updated recommendations."

/-- Apology appended by the `catch` branch of `handleInitialSearch`. -/
def searchApology : String :=
  "Sorry, I encountered an error while searching for products. Please try again."

/-- Apology appended by the `catch` branch of `handleSendMessage`. -/
def sendApology : String :=
  "Sorry, I encountered an error. Please try rephrasing your request."

/-- Apology appended by the `catch` branch of `handleApplyRefinements`. -/
def refineApology : String :=
  "Sorry, I had trouble refining your search. Please try again."

/-- The refinement-message builder at the top of
`handleApplyRefinements`: starts from `'Refine my search'` and appends,
in source order, the budget clause when `price_range` is present, the
feature clause when `features` is present and nonempty, and the
verified-reviews clause when `verified_reviews_only` is truthy. -/
def buildRefinementQuery (opts : RefinementOptions) : String :=
  let q := "Refine my search"
  let q := match opts.price_range with
    | some pr =>
        q ++ " with budget between $" ++ toString pr.min ++ " and $" ++
          toString pr.max
    | none => q
  let q := match opts.features with
    | some fs =>
        if fs.length > 0 then
          q ++ " including features: " ++ String.intercalate ", " fs
        else q
    | none => q
  let q := match opts.verified_reviews_only with
    | some true => q ++ " with verified reviews only"
    | _ => q
  q

/-- One handler invocation.  The `outcome` argument is what the handler's
single awaited API call produced: `some resp` when the promise resolved
with a `SearchResponse`, `none` when the client function threw. -/
inductive UiEvent where
  | initialSearch (query : String) (outcome : Option SearchResponse)
  | sendMessage (message : String) (outcome : Option SearchResponse)
  | applyRefinements (opts : RefinementOptions) (outcome : Option SearchResponse)
deriving DecidableEq, Repr

/-- The network outcome carried by an event. -/
def UiEvent.outcome : UiEvent → Option SearchResponse
  | .initialSearch _ o => o
  | .sendMessage _ o => o
  | .applyRefinements _ o => o

/-- Whether the event is a `handleInitialSearch` invocation (fired by the
`useEffect` on the `q` URL parameter, i.e. at the start of a browsing
session). -/
def UiEvent.isInitial : UiEvent → Bool
  | .initialSearch _ _ => true
  | .sendMessage _ _ => false
  | .applyRefinements _ _ => false

/-- One handler invocation as a state transition, returning the new
state and the API calls the handler issued.

* `handleInitialSearch q`: replaces the transcript with the user
  message, posts `searchProducts({ query })`; on success stores
  products, session id and suggestions and appends the assistant
  message; on error appends the apology and touches nothing else.
* `handleSendMessage m`: appends the user message, then
  `sessionId ? refineSearch({query, session_id}) : searchProducts({query})`
  (empty string is falsy); on success stores products, session id and
  suggestions and appends the assistant message; on error appends the
  apology.
* `handleApplyRefinements opts`: stores `opts` as the current
  refinement options, builds the refinement query, appends it as the
  user message and posts
  `refineSearch({query, session_id, price_range, features_to_add})`;
  on success stores products and suggestions (NOT the session id — the
  source has no `setSessionId` here) and appends the assistant message;
  on error appends the apology. -/
def step (st : SearchState) : UiEvent → SearchState × List ApiCall
  | .initialSearch q out =>
    let userMsg : ChatMessage := { type := .user, content := q }
    let call := ApiCall.search { query := q }
    match out with
    | some resp =>
        ({ messages := [userMsg,
             { type := .assistant, content := initialAssistantContent resp,
               products := some resp.products }]
           products := resp.products
           sessionId := resp.session_id
           suggestions := resp.suggestions
           refinementOptions := st.refinementOptions }, [call])
    | none =>
        ({ st with messages :=
             [userMsg, { type := .assistant, content := searchApology }] },
         [call])
  | .sendMessage m out =>
    let userMsg : ChatMessage := { type := .user, content := m }
    let call :=
      if st.sessionId = "" then ApiCall.search { query := m }
      else ApiCall.refine { query := m, session_id := some st.sessionId }
    match out with
    | some resp =>
        ({ messages := st.messages ++ [userMsg,
             { type := .assistant, content := sendAssistantContent resp,
               products := some resp.products }]
           products := resp.products
           sessionId := resp.session_id
           suggestions := resp.suggestions
           refinementOptions := st.refinementOptions }, [call])
    | none =>
        ({ st with messages := st.messages ++
             [userMsg, { type := .assistant, content := sendApology }] },
         [call])
  | .applyRefinements opts out =>
    let q := buildRefinementQuery opts
    let userMsg : ChatMessage := { type := .user, content := q }
    let call := ApiCall.refine
      { query := q
        session_id := some st.sessionId
        price_range := opts.price_range
        features_to_add := opts.features }
    match out with
    | some resp =>
        ({ messages := st.messages ++ [userMsg,
             { type := .assistant, content := refineAssistantContent resp,
               products := some resp.products }]
           products := resp.products
           sessionId := st.sessionId
           suggestions := resp.suggestions
           refinementOptions := opts }, [call])
    | none =>
        ({ st with
           refinementOptions := opts
           messages := st.messages ++
             [userMsg, { type := .assistant, content := refineApology }] },
         [call])

/-- Fold a sequence of handler invocations over a state. -/
def runTrace (st : SearchState) : List UiEvent → SearchState
  | [] => st
  | e :: evs => runTrace (step st e).1 evs

/-- All API calls issued while running a sequence of handler
invocations, in order. -/
def traceCalls (st : SearchState) : List UiEvent → List ApiCall
  | [] => []
  | e :: evs => (step st e).2 ++ traceCalls (step st e).1 evs

/-! ### Spec-side rendering of the refinement query

The spec describes the refinement query as a fixed-order concatenation
of optional clauses.  The following definitions follow the spec's words
(clause by clause) and are compared with `buildRefinementQuery`, which
follows the source's sequential string mutation. -/

/-- Spec-side price clause: present exactly when price bounds are. -/
def priceClause : Option PriceRange → String
  | some pr =>
      " with budget between $" ++ toString pr.min ++ " and $" ++
        toString pr.max
  | none => ""

/-- Spec-side feature clause: present exactly when the feature list is
present and nonempty. -/
def featureClause : Option (List String) → String
  | some fs =>
      if fs.length > 0 then
        " including features: " ++ String.intercalate ", " fs
      else ""
  | none => ""

/-- Spec-side verified-reviews clause: present exactly when the flag is
present and set. -/
def verifiedClause : Option Bool → String
  | some true => " with verified reviews only"
  | _ => ""

/-- Spec-side refinement query: the base text followed by the price
clause, then the feature clause, then the verified-reviews clause. -/
def specRefinementQuery (opts : RefinementOptions) : String :=
  "Refine my search" ++ priceClause opts.price_range ++
    featureClause opts.features ++ verifiedClause opts.verified_reviews_only

/-! ### Helpers for transcript-shape reasoning -/

/-- The roles of the transcript of a state, in order. -/
def msgTypes (st : SearchState) : List MsgType :=
  st.messages.map ChatMessage.type

/-- The role sequence of `n` completed turns: user, assistant, user,
assistant, ... (`2 * n` entries). -/
def rolePattern : Nat → List MsgType
  | 0 => []
  | n + 1 => MsgType.user :: MsgType.assistant :: rolePattern n

/-! ### Concrete fixtures used by witness theorems -/

/-- A concrete product record, as the backend would return it. -/
def wProduct : Product :=
  { title := "Wireless Mouse"
    price := "$25.99"
    image_url := "http://img"
    product_url := "http://shop"
    purchases := 1200
    good_reviews := "precise"
    bad_reviews := "battery"
    score := (9 : Rat) / 10
    reasoning := "good value" }

/-- A concrete successful `SearchResponse` carrying session id
`"sess-1"`. -/
def wResp : SearchResponse :=
  { products := [wProduct]
    session_id := "sess-1"
    query_processed := "wireless mouse"
    suggestions := ["Show cheaper options"] }

/-- A concrete state mid-session: one prior turn, one product shown,
session id `"sess-1"` in hand. -/
def wState : SearchState :=
  { messages := [{ type := MsgType.user, content := "wireless mouse" }]
    products := [wProduct]
    sessionId := "sess-1"
    suggestions := []
    refinementOptions := {} }

/-- A concrete trace tail: one chat refinement and one panel refinement,
both answered with `wResp`. -/
def wTail : List UiEvent :=
  [UiEvent.sendMessage "cheaper" (some wResp),
   UiEvent.applyRefinements { features := some ["wireless"] } (some wResp)]

/-- A concrete three-submission session: URL-driven initial search, then
the two follow-ups of `wTail`, every call succeeding. -/
def wEvsFull : List UiEvent :=
  UiEvent.initialSearch "shoes" (some wResp) :: wTail

theorem rolePattern_length (n : Nat) : (rolePattern n).length = 2 * n := by
  induction n with
  | zero => rfl
  | succ k ih => simp [rolePattern, ih]; omega

/-- Every non-initial handler invocation appends exactly a user message
and then an assistant message to the transcript, whether or not the
network call succeeded. -/
theorem step_messages_append (st : SearchState) (e : UiEvent)
    (hni : UiEvent.isInitial e = false) :
    ∃ u a : ChatMessage, (step st e).1.messages = st.messages ++ [u, a] ∧
      u.type = MsgType.user ∧ a.type = MsgType.assistant := by
  cases e with
  | initialSearch q out => simp [UiEvent.isInitial] at hni
  | sendMessage m out =>
      cases out with
      | some resp => exact ⟨_, _, rfl, rfl, rfl⟩
      | none => exact ⟨_, _, rfl, rfl, rfl⟩
  | applyRefinements opts out =>
      cases out with
      | some resp => exact ⟨_, _, rfl, rfl, rfl⟩
      | none => exact ⟨_, _, rfl, rfl, rfl⟩

/-- Running any sequence of non-initial handler invocations extends the
transcript's role sequence by one `[user, assistant]` pair per event. -/
theorem msgTypes_runTrace (evs : List UiEvent) :
    ∀ st : SearchState, (∀ e ∈ evs, UiEvent.isInitial e = false) →
      msgTypes (runTrace st evs) = msgTypes st ++ rolePattern evs.length := by
  induction evs with
  | nil => intro st _; simp [runTrace, rolePattern]
  | cons e evs ih =>
      intro st hni
      obtain ⟨u, a, hmsg, hu, ha⟩ :=
        step_messages_append st e (hni e (List.mem_cons_self e evs))
      have hrest : ∀ e' ∈ evs, UiEvent.isInitial e' = false :=
        fun e' he' => hni e' (List.mem_cons_of_mem e he')
      calc msgTypes (runTrace st (e :: evs))
          = msgTypes (runTrace (step st e).1 evs) := rfl
        _ = msgTypes (step st e).1 ++ rolePattern evs.length := ih _ hrest
        _ = msgTypes st ++ rolePattern (evs.length + 1) := by
            simp [msgTypes, hmsg, hu, ha, rolePattern]

/-! ### Helpers for session-id reasoning -/

/-- When a session id is in hand (nonempty string), every call a
non-initial handler issues is a `/refine` call carrying exactly that
stored session id. -/
theorem step_call_session (st : SearchState) (e : UiEvent)
    (hni : UiEvent.isInitial e = false) (hne : ¬ st.sessionId = "") :
    ∀ c ∈ (step st e).2,
      ApiCall.sessionIdField c = some st.sessionId ∧ ApiCall.isRefine c = true := by
  intro c hc
  cases e with
  | initialSearch q out => simp [UiEvent.isInitial] at hni
  | sendMessage m out =>
      have hcall : c = ApiCall.refine { query := m, session_id := some st.sessionId } := by
        cases out <;> simpa [step, hne] using hc
      subst hcall
      exact ⟨rfl, rfl⟩
  | applyRefinements opts out =>
      have hcall : c = ApiCall.refine
          { query := buildRefinementQuery opts
            session_id := some st.sessionId
            price_range := opts.price_range
            features_to_add := opts.features } := by
        cases out <;> simpa [step] using hc
      subst hcall
      exact ⟨rfl, rfl⟩

/-- The stored session id after a non-initial handler invocation:
unchanged unless the handler was `handleSendMessage` and succeeded, in
which case it becomes the response's session id — so it stays equal to
`s` whenever every response carries `s`. -/
theorem step_session_id (st : SearchState) (e : UiEvent) (s : String)
    (hst : st.sessionId = s)
    (hni : UiEvent.isInitial e = false)
    (hecho : ∀ resp, UiEvent.outcome e = some resp → resp.session_id = s) :
    (step st e).1.sessionId = s := by
  cases e with
  | initialSearch q out => simp [UiEvent.isInitial] at hni
  | sendMessage m out =>
      cases out with
      | some resp => simpa [step] using hecho resp rfl
      | none => simpa [step] using hst
  | applyRefinements opts out =>
      cases out with
      | some resp => simpa [step] using hst
      | none => simpa [step] using hst

/-- Trace-level version: starting from a state whose stored session id
is the nonempty `s`, if no event is an initial search and every
successful response still carries `s`, then every call issued along the
trace is a `/refine` call carrying exactly `s`. -/
theorem traceCalls_session (s : String) (hs : s ≠ "") (evs : List UiEvent) :
    ∀ st : SearchState, st.sessionId = s →
      (∀ e ∈ evs, UiEvent.isInitial e = false) →
      (∀ e ∈ evs, ∀ resp, UiEvent.outcome e = some resp → resp.session_id = s) →
      ∀ c ∈ traceCalls st evs,
        ApiCall.sessionIdField c = some s ∧ ApiCall.isRefine c = true := by
  induction evs with
  | nil => intro st _ _ _ c hc; simp [traceCalls] at hc
  | cons e rest ih =>
      intro st hst hni hecho c hc
      have hnihd : UiEvent.isInitial e = false := hni e (List.mem_cons_self e rest)
      simp only [traceCalls] at hc
      rcases List.mem_append.mp hc with h | h
      · have hne : ¬ st.sessionId = "" := by rw [hst]; exact hs
        have hgoal := step_call_session st e hnihd hne c h
        rwa [hst] at hgoal
      · have hst' : (step st e).1.sessionId = s :=
          step_session_id st e s hst hnihd
            (fun resp hr => hecho e (List.mem_cons_self e rest) resp hr)
        exact ih (step st e).1 hst'
          (fun e' he' => hni e' (List.mem_cons_of_mem e he'))
          (fun e' he' => hecho e' (List.mem_cons_of_mem e he')) c h

/-- C1: once a session id has been received from the server in a
`SearchResponse` (the initial search returns `r` with a nonempty
`session_id`, and the server keeps echoing that id in later responses),
every subsequent call the client issues is a `/refine` call whose
`session_id` field is exactly that id; the client never invents or
mutates it. -/
theorem session_id_reused (q : String) (r : SearchResponse) (evs : List UiEvent)
    (hne : r.session_id ≠ "")
    (hni : ∀ e ∈ evs, UiEvent.isInitial e = false)
    (hecho : ∀ e ∈ evs, ∀ resp, UiEvent.outcome e = some resp →
        resp.session_id = r.session_id) :
    ∀ c ∈ traceCalls (step initState (UiEvent.initialSearch q (some r))).1 evs,
      ApiCall.sessionIdField c = some r.session_id ∧ ApiCall.isRefine c = true := by
  have hst : (step initState (UiEvent.initialSearch q (some r))).1.sessionId
      = r.session_id := rfl
  exact traceCalls_session r.session_id hne evs _ hst hni hecho

/-- C1, witnessed on a concrete session: an initial search answered with
session id `"sess-1"`, followed by a chat refinement and a panel
refinement. -/
theorem session_id_reused_witness :
    wResp.session_id ≠ "" ∧
    (∀ e ∈ wTail, UiEvent.isInitial e = false) ∧
    (∀ e ∈ wTail, ∀ resp, UiEvent.outcome e = some resp →
        resp.session_id = wResp.session_id) ∧
    ∀ c ∈ traceCalls (step initState (UiEvent.initialSearch "shoes" (some wResp))).1 wTail,
      ApiCall.sessionIdField c = some wResp.session_id ∧ ApiCall.isRefine c = true := by
  have hecho : ∀ e ∈ wTail, ∀ resp, UiEvent.outcome e = some resp →
      resp.session_id = wResp.session_id := by
    intro e he resp hr
    simp only [wTail, List.mem_cons, List.not_mem_nil, or_false] at he
    rcases he with rfl | rfl <;>
      · simp only [UiEvent.outcome, Option.some.injEq] at hr
        subst hr
        rfl
  exact ⟨by decide, by decide, hecho,
    session_id_reused "shoes" wResp wTail (by decide) (by decide) hecho⟩

/-- C2: when the handler's search or refine call fails in transport, the
product list is left exactly as it was, the transcript gains only the
user message followed by a single assistant apology, and exactly one
call was issued (no retry).  The initial-search handler replaces (rather
than extends) the transcript, so for it the statement is taken from the
empty transcript it starts a session with. -/
theorem failure_preserves_state (st : SearchState) (e : UiEvent)
    (hfail : UiEvent.outcome e = none)
    (hinit : UiEvent.isInitial e = true → st.messages = []) :
    (step st e).1.products = st.products ∧
    (∃ u a : ChatMessage,
      (step st e).1.messages = st.messages ++ [u, a] ∧
      u.type = MsgType.user ∧ a.type = MsgType.assistant ∧
      (a.content = searchApology ∨ a.content = sendApology ∨
        a.content = refineApology) ∧
      a.products = none) ∧
    (step st e).2.length = 1 := by
  cases e with
  | initialSearch q out =>
      cases out with
      | some r => simp [UiEvent.outcome] at hfail
      | none =>
          have hm : st.messages = [] := hinit rfl
          exact ⟨rfl,
            ⟨{ type := .user, content := q },
             { type := .assistant, content := searchApology },
             by simp [step, hm], rfl, rfl, Or.inl rfl, rfl⟩,
            rfl⟩
  | sendMessage m out =>
      cases out with
      | some r => simp [UiEvent.outcome] at hfail
      | none =>
          exact ⟨rfl,
            ⟨{ type := .user, content := m },
             { type := .assistant, content := sendApology },
             rfl, rfl, rfl, Or.inr (Or.inl rfl), rfl⟩,
            rfl⟩
  | applyRefinements opts out =>
      cases out with
      | some r => simp [UiEvent.outcome] at hfail
      | none =>
          exact ⟨rfl,
            ⟨{ type := .user, content := buildRefinementQuery opts },
             { type := .assistant, content := refineApology },
             rfl, rfl, rfl, Or.inr (Or.inr rfl), rfl⟩,
            rfl⟩

/-- C2, witnessed on a concrete failing chat submission issued from a
mid-session state with one product on display. -/
theorem failure_preserves_state_witness :
    UiEvent.outcome (UiEvent.sendMessage "cheaper" none) = none ∧
    ((step wState (UiEvent.sendMessage "cheaper" none)).1.products = wState.products ∧
     (∃ u a : ChatMessage,
       (step wState (UiEvent.sendMessage "cheaper" none)).1.messages =
         wState.messages ++ [u, a] ∧
       u.type = MsgType.user ∧ a.type = MsgType.assistant ∧
       (a.content = searchApology ∨ a.content = sendApology ∨
         a.content = refineApology) ∧
       a.products = none) ∧
     (step wState (UiEvent.sendMessage "cheaper" none)).2.length = 1) :=
  ⟨rfl, failure_preserves_state wState (UiEvent.sendMessage "cheaper" none) rfl
    (by intro h; exact absurd h (by decide))⟩

/-- C3: for price bounds min 20 / max 100 and feature list
`["wireless"]`, with the verified-reviews flag absent, the generated
refinement query is exactly the expected sentence. -/
theorem refinement_query_example :
    buildRefinementQuery
      { price_range := some { min := 20, max := 100 }
        features := some ["wireless"] } =
    "Refine my search with budget between $20 and $100 including features: wireless" := by
  rfl

/-- C4: the refinement query the source builds by successive mutation is
exactly the fixed-order concatenation of the spec's clauses: base text,
then price clause, then feature clause, then verified-reviews clause,
each clause empty when its option is absent (or, for features, empty). -/
theorem refinement_query_clause_order (opts : RefinementOptions) :
    buildRefinementQuery opts = specRefinementQuery opts := by
  obtain ⟨pr, fs, v⟩ := opts
  simp only [buildRefinementQuery, specRefinementQuery]
  rcases v with _ | b
  · cases pr <;> cases fs <;>
      simp only [priceClause, featureClause, verifiedClause] <;>
      (try split_ifs) <;>
      simp only [String.append_empty, String.append_assoc]
  · cases b <;> cases pr <;> cases fs <;>
      simp only [priceClause, featureClause, verifiedClause] <;>
      (try split_ifs) <;>
      simp only [String.append_empty, String.append_assoc]

/-- C5: after `N` user submissions each of whose search or refine call
succeeds (at most the first being the URL-driven initial search), the
transcript holds exactly `2 * N` messages, one user message followed by
one assistant message per turn. -/
theorem transcript_two_per_turn (evs : List UiEvent)
    (hsucc : ∀ e ∈ evs, (UiEvent.outcome e).isSome = true)
    (hni : ∀ e ∈ evs.tail, UiEvent.isInitial e = false) :
    msgTypes (runTrace initState evs) = rolePattern evs.length ∧
    (runTrace initState evs).messages.length = 2 * evs.length := by
  have hmain : msgTypes (runTrace initState evs) = rolePattern evs.length := by
    cases evs with
    | nil => rfl
    | cons e rest =>
        have hrest : ∀ e' ∈ rest, UiEvent.isInitial e' = false := hni
        cases e with
        | initialSearch q out =>
            cases out with
            | none =>
                have hone := hsucc _ (List.mem_cons_self _ _)
                simp [UiEvent.outcome] at hone
            | some r =>
                have h1 : msgTypes (step initState (UiEvent.initialSearch q (some r))).1
                    = [MsgType.user, MsgType.assistant] := rfl
                have h2 := msgTypes_runTrace rest
                  (step initState (UiEvent.initialSearch q (some r))).1 hrest
                calc msgTypes (runTrace initState (UiEvent.initialSearch q (some r) :: rest))
                    = msgTypes (runTrace (step initState (UiEvent.initialSearch q (some r))).1 rest) := rfl
                  _ = [MsgType.user, MsgType.assistant] ++ rolePattern rest.length := by
                      rw [h2, h1]
                  _ = rolePattern (UiEvent.initialSearch q (some r) :: rest).length := by
                      simp [rolePattern]
        | sendMessage m out =>
            have hall : ∀ e' ∈ (UiEvent.sendMessage m out :: rest),
                UiEvent.isInitial e' = false := by
              intro e' he'
              rcases List.mem_cons.mp he' with h | h
              · subst h; rfl
              · exact hrest e' h
            have h2 := msgTypes_runTrace (UiEvent.sendMessage m out :: rest) initState hall
            simpa [msgTypes, initState] using h2
        | applyRefinements opts out =>
            have hall : ∀ e' ∈ (UiEvent.applyRefinements opts out :: rest),
                UiEvent.isInitial e' = false := by
              intro e' he'
              rcases List.mem_cons.mp he' with h | h
              · subst h; rfl
              · exact hrest e' h
            have h2 := msgTypes_runTrace (UiEvent.applyRefinements opts out :: rest) initState hall
            simpa [msgTypes, initState] using h2
  refine ⟨hmain, ?_⟩
  have hlen := congrArg List.length hmain
  simpa [msgTypes, rolePattern_length] using hlen

/-- C5, witnessed on a concrete three-submission session (initial
search, chat refinement, panel refinement): six messages, alternating
user/assistant. -/
theorem transcript_two_per_turn_witness :
    (∀ e ∈ wEvsFull, (UiEvent.outcome e).isSome = true) ∧
    (∀ e ∈ wEvsFull.tail, UiEvent.isInitial e = false) ∧
    (msgTypes (runTrace initState wEvsFull) = rolePattern wEvsFull.length ∧
     (runTrace initState wEvsFull).messages.length = 2 * wEvsFull.length) :=
  ⟨by decide, by decide,
   transcript_two_per_turn wEvsFull (by decide) (by decide)⟩

/-- C6: a chat submission issues exactly one call — `/refine` carrying
the stored session id when one exists, `/search` otherwise — and on
success appends the user message and the assistant message built from
the response, and replaces the product and suggestion lists with the
response's. -/
theorem submit_contract (st : SearchState) (m : String) (resp : SearchResponse) :
    (step st (UiEvent.sendMessage m (some resp))).2 =
      [if st.sessionId = "" then ApiCall.search { query := m }
       else ApiCall.refine { query := m, session_id := some st.sessionId }] ∧
    (step st (UiEvent.sendMessage m (some resp))).1.messages =
      st.messages ++
        [{ type := MsgType.user, content := m },
         { type := MsgType.assistant, content := sendAssistantContent resp,
           products := some resp.products }] ∧
    (step st (UiEvent.sendMessage m (some resp))).1.products = resp.products ∧
    (step st (UiEvent.sendMessage m (some resp))).1.suggestions = resp.suggestions :=
  ⟨rfl, rfl, rfl, rfl⟩

/-- C7: the API client collapses every failure, whatever status or body
the server produced, into one of exactly two fixed signals — one for
search, a different one for refine — and the signal never depends on
the failure's contents. -/
theorem api_failure_translation (e e' : AxiosFailure) :
    searchProducts (Except.error e) = Except.error "Failed to search products" ∧
    refineSearch (Except.error e) = Except.error "Failed to refine search" ∧
    searchProducts (Except.error e) = searchProducts (Except.error e') ∧
    refineSearch (Except.error e) = refineSearch (Except.error e') ∧
    ("Failed to search products" : String) ≠ "Failed to refine search" :=
  ⟨rfl, rfl, rfl, rfl, by decide⟩

/-- C8: the structured refine request the panel sends contains exactly
the query string, the stored session id, the price bounds and the
feature list (as `features_to_add`); `features_to_remove` is never set,
and `SearchRequest` has no field at all for the verified-reviews flag,
which therefore reaches the server only inside the query string. -/
theorem panel_request_fields (st : SearchState) (opts : RefinementOptions)
    (out : Option SearchResponse) :
    (step st (UiEvent.applyRefinements opts out)).2 =
      [ApiCall.refine
        { query := buildRefinementQuery opts
          session_id := some st.sessionId
          price_range := opts.price_range
          features_to_add := opts.features
          features_to_remove := none }] := by
  cases out <;> rfl

/-- C9: applying refinements through the panel always issues a `/refine`
call carrying the stored session id — even when none has been received
and that id is still the empty string — whereas a chat submission with
no session id falls back to a `/search` call with no session id at
all. -/
theorem panel_always_refines (st : SearchState) (opts : RefinementOptions)
    (m : String) (out outSend : Option SearchResponse) :
    (∃ req : SearchRequest,
      (step st (UiEvent.applyRefinements opts out)).2 = [ApiCall.refine req] ∧
      req.session_id = some st.sessionId) ∧
    (st.sessionId = "" →
      (step st (UiEvent.sendMessage m outSend)).2 = [ApiCall.search { query := m }]) := by
  constructor
  · cases out <;> exact ⟨_, rfl, rfl⟩
  · intro h
    cases outSend <;> simp [step, h]

/-- C9, witnessed from the fresh state (empty-string session id): the
panel still refines, the chat submission searches. -/
theorem panel_always_refines_witness :
    ((∃ req : SearchRequest,
      (step initState (UiEvent.applyRefinements { features := some ["wireless"] } none)).2
        = [ApiCall.refine req] ∧
      req.session_id = some initState.sessionId) ∧
    (initState.sessionId = "" →
      (step initState (UiEvent.sendMessage "hi" none)).2
        = [ApiCall.search { query := "hi" }])) :=
  panel_always_refines initState { features := some ["wireless"] } "hi" none none

/-- C10: the health check is a total Boolean (it never re-throws) that
returns true exactly when the `/health` call succeeded and the body's
status field equals `"healthy"`; any other status value, a missing
status field, and any transport error all yield false. -/
theorem healthCheck_iff (o : Except AxiosFailure HealthData) :
    healthCheck o = true ↔
      ∃ d : HealthData, o = Except.ok d ∧ d.status = some "healthy" := by
  cases o with
  | ok d => simp [healthCheck]
  | error e => simp [healthCheck]
